import Mathlib

/-!
Shallow embedding of the upload/processing-status orchestration of the
headnugget front end: the file validator and upload transport of
`src/services/documentService.ts`, and the upload orchestrator / status
poller of `src/hooks/useDocumentUpload.ts`.

File sizes are bytes as `Nat`; MIME types and messages are `String`;
JavaScript `x || y` on possibly-absent strings (where `undefined`, `null`
and `""` are falsy) is modelled by `jsOrS`.
-/

/-- Metadata of a candidate file: the `size` (bytes) and `type` (MIME string)
fields of a DOM `File`, plus its display `name`. -/
structure FileMeta where
  name : String
  size : Nat
  type : String
deriving DecidableEq, Repr

/-- Type `FileValidationRules` from `document.types.ts`: `{maxSize, allowedTypes[]}`. -/
structure FileValidationRules where
  maxSize : Nat
  allowedTypes : List String
deriving DecidableEq, Repr

/-- Type `FileValidationResult` from `document.types.ts`: `{isValid, error?}`. -/
structure FileValidationResult where
  isValid : Bool
  error : Option String
deriving DecidableEq, Repr

/-- JavaScript `Math.round (num / den)` for non-negative operands:
round-half-up of the exact rational `num / den`. -/
def mathRound (num den : Nat) : Nat :=
  (2 * num + den) / (2 * den)

/-- JavaScript `a || b` where `a` is a possibly absent string: `undefined`,
`null` and the empty string are falsy and fall through to `b`. -/
def jsOrS (a : Option String) (b : String) : String :=
  match a with
  | some s => if s = "" then b else s
  | none => b

/-- Constant `FILE_VALIDATION.MAX_FILE_SIZE` from `constants/api.ts`: 50MB. -/
def FILE_VALIDATION_MAX_FILE_SIZE : Nat := 50 * 1024 * 1024

/-- Constant `FILE_VALIDATION.ALLOWED_TYPES` from `constants/api.ts`. -/
def FILE_VALIDATION_ALLOWED_TYPES : List String :=
  ["application/pdf",
   "application/msword",
   "application/vnd.openxmlformats-officedocument.wordprocessingml.document",
   "application/vnd.ms-excel",
   "application/vnd.openxmlformats-officedocument.spreadsheetml.sheet",
   "application/vnd.ms-powerpoint",
   "application/vnd.openxmlformats-officedocument.presentationml.presentation",
   "application/zip",
   "image/jpeg",
   "image/png",
   "image/gif",
   "image/bmp",
   "image/webp"]

/-- Constant `FILE_VALIDATION.ALLOWED_EXTENSIONS` from `constants/api.ts`. -/
def FILE_VALIDATION_ALLOWED_EXTENSIONS : List String :=
  [".pdf", ".doc", ".docx", ".xls", ".xlsx", ".ppt", ".pptx", ".zip",
   ".jpg", ".jpeg", ".png", ".gif", ".bmp", ".webp"]

/-- The default `rules` argument of `validateFile`:
`{ maxSize: FILE_VALIDATION.MAX_FILE_SIZE, allowedTypes: [...FILE_VALIDATION.ALLOWED_TYPES] }`. -/
def defaultRules : FileValidationRules :=
  { maxSize := FILE_VALIDATION_MAX_FILE_SIZE,
    allowedTypes := FILE_VALIDATION_ALLOWED_TYPES }

/-- The size-limit error message of `validateFile`:
`File size must be less than ${Math.round(rules.maxSize / (1024 * 1024))}MB`. -/
def sizeErrorMsg (rules : FileValidationRules) : String :=
  "File size must be less than " ++ toString (mathRound rules.maxSize (1024 * 1024)) ++ "MB"

/-- The unsupported-type error message of `validateFile`:
`File type not supported. Allowed types: ${FILE_VALIDATION.ALLOWED_EXTENSIONS.join(', ')}`. -/
def typeErrorMsg : String :=
  "File type not supported. Allowed types: " ++
    String.intercalate ", " FILE_VALIDATION_ALLOWED_EXTENSIONS

/-- Method `DocumentService.validateFile` from `documentService.ts`: checks
`file.size > rules.maxSize` first, then `!rules.allowedTypes.includes(file.type)`. -/
def validateFile (file : FileMeta) (rules : FileValidationRules) : FileValidationResult :=
  if file.size > rules.maxSize then
    { isValid := false, error := some (sizeErrorMsg rules) }
  else if !(rules.allowedTypes.contains file.type) then
    { isValid := false, error := some typeErrorMsg }
  else
    { isValid := true, error := none }

/-- Function `validateFile` applied at its default `rules`, as the upload hook and
`uploadDocument` call it. -/
def validateFileDefault (file : FileMeta) : FileValidationResult :=
  validateFile file defaultRules

/-- C2: `validate(file, rules)` is a pure total function (a Lean function by
construction) returning `isValid = true` iff `file.size ≤ rules.maxSize` and
`file.type ∈ rules.allowedTypes`; and on the concrete fixture
`{size: 11000000, type: application/pdf}` against
`{maxSize: 10485760, allowedTypes: [application/pdf]}` it returns
`isValid = false` with error `File size must be less than 10MB`. -/
theorem validateFile_isValid_iff_and_fixture :
    (∀ (file : FileMeta) (rules : FileValidationRules),
      (validateFile file rules).isValid = true ↔
        file.size ≤ rules.maxSize ∧ file.type ∈ rules.allowedTypes) ∧
    validateFile { name := "big.pdf", size := 11000000, type := "application/pdf" }
        { maxSize := 10485760, allowedTypes := ["application/pdf"] } =
      { isValid := false, error := some "File size must be less than 10MB" } := by
  constructor
  · intro file rules
    by_cases hs : file.size > rules.maxSize
    · simp [validateFile, hs]
    · by_cases ht : file.type ∈ rules.allowedTypes
      · simp [validateFile, hs, ht, List.contains]
        omega
      · simp [validateFile, hs, ht, List.contains]
  · decide

/-- The size-limit message and the unsupported-type message are distinct
strings, whatever `rules.maxSize` is (their fixed prefixes differ). -/
theorem sizeErrorMsg_ne_typeErrorMsg (rules : FileValidationRules) :
    sizeErrorMsg rules ≠ typeErrorMsg := by
  intro habs
  have hdata : (sizeErrorMsg rules).data.take 28 = typeErrorMsg.data.take 28 := by
    rw [habs]
  rw [sizeErrorMsg, String.data_append, String.data_append, List.append_assoc,
    List.take_left'
      (show ("File size must be less than ").data.length = 28 by decide)] at hdata
  revert hdata
  decide

/-- C9: the validator checks size before type — a file that both exceeds
`rules.maxSize` and has a type outside `rules.allowedTypes` gets the
size-limit message (which states the limit in MB), not the type message. -/
theorem validateFile_size_checked_before_type (file : FileMeta) (rules : FileValidationRules)
    (hsize : file.size > rules.maxSize) (_htype : file.type ∉ rules.allowedTypes) :
    validateFile file rules =
      { isValid := false,
        error := some ("File size must be less than " ++
          toString (mathRound rules.maxSize (1024 * 1024)) ++ "MB") } ∧
    (validateFile file rules).error ≠ some typeErrorMsg := by
  have h : validateFile file rules =
      { isValid := false, error := some (sizeErrorMsg rules) } := by
    unfold validateFile
    simp [hsize]
  refine ⟨h, ?_⟩
  rw [h]
  simp only [ne_eq, Option.some.injEq]
  exact sizeErrorMsg_ne_typeErrorMsg rules

/-- Concrete witness for C9: a 60MB file of an unsupported type gets the
size-limit message. -/
theorem validateFile_size_checked_before_type_witness :
    (62914560 > defaultRules.maxSize ∧
      "application/octet-stream" ∉ defaultRules.allowedTypes) ∧
    (validateFile { name := "a.bin", size := 62914560, type := "application/octet-stream" }
        defaultRules =
      { isValid := false,
        error := some ("File size must be less than " ++
          toString (mathRound defaultRules.maxSize (1024 * 1024)) ++ "MB") } ∧
    (validateFile { name := "a.bin", size := 62914560, type := "application/octet-stream" }
        defaultRules).error ≠ some typeErrorMsg) :=
  ⟨⟨by decide, by decide⟩,
    validateFile_size_checked_before_type _ _ (by decide) (by decide)⟩

/-- Persisted client-side session state: the `auth_token` and `user_data`
entries of `localStorage` (`none` = key absent). -/
structure SessionState where
  authToken : Option String
  userData : Option String
deriving DecidableEq, Repr

/-- Browser-visible state of the client: the persisted session plus whether
`window.location.href` has been set to `/login`. -/
structure ClientState where
  session : SessionState
  redirectedToLogin : Bool
deriving DecidableEq, Repr

/-- The body of an HTTP error response, when it is a JSON object:
its optional `detail` and `message` fields. -/
structure ErrorBody where
  detail : Option String
  message : Option String
deriving DecidableEq, Repr

/-- An axios request failure: the optional response status
(`error.response?.status`), the optional object body (`error.response?.data`)
and the transport-level `error.message`. -/
structure HttpError where
  responseStatus : Option Nat
  responseData : Option ErrorBody
  message : Option String
deriving DecidableEq, Repr

/-- The outcome the server gives a single HTTP request: success with payload
`α`, or an axios error. -/
inductive ReqOutcome (α : Type) where
  | ok (data : α)
  | err (e : HttpError)
deriving DecidableEq, Repr

/-- Method `DocumentService.handleError`: prefer the server-supplied `detail`, then
`message`, then a generic string; without an object body, the transport
message or a generic string. -/
def handleError (e : HttpError) : String :=
  match e.responseData with
  | some body => jsOrS body.detail (jsOrS body.message "An error occurred")
  | none => jsOrS e.message "An unexpected error occurred"

/-- Method `DocumentService.makeRequest`: on success returns the payload; on error,
if the response status is 401 it removes `auth_token` and `user_data` from
storage and redirects to `/login`, and in every error case rethrows
`handleError`. Modelled as a function of the current client state and the
request's outcome, returning the new client state and the result. -/
def makeRequest {α : Type} (st : ClientState) (resp : ReqOutcome α) :
    ClientState × Except String α :=
  match resp with
  | ReqOutcome.ok a => (st, Except.ok a)
  | ReqOutcome.err e =>
      let st1 :=
        if e.responseStatus = some 401 then
          { st with session := { authToken := none, userData := none },
                    redirectedToLogin := true }
        else st
      (st1, Except.error (handleError e))

/-- The payload of a successful `POST /api/documents/upload` response, the
fields the client reads: `id`, `entity_id`, `status`. -/
structure UploadResponse where
  id : String
  entity_id : Option String
  status : String
deriving DecidableEq, Repr

/-- A network side effect observable at the transport boundary. -/
inductive NetworkEffect where
  | postUpload (fileName : String) (entityId : Option String)
deriving DecidableEq, Repr

instance {ε α : Type} [DecidableEq ε] [DecidableEq α] : DecidableEq (Except ε α) := fun a b =>
  match a, b with
  | Except.ok x, Except.ok y =>
      if h : x = y then isTrue (h ▸ rfl) else isFalse fun c => h (Except.ok.inj c)
  | Except.error x, Except.error y =>
      if h : x = y then isTrue (h ▸ rfl) else isFalse fun c => h (Except.error.inj c)
  | Except.ok _, Except.error _ => isFalse fun c => Except.noConfusion c
  | Except.error _, Except.ok _ => isFalse fun c => Except.noConfusion c

/-- Result of one `uploadDocument` call: the client state afterwards, the
network requests it issued, and its returned value or thrown message. -/
structure UploadCall where
  state : ClientState
  effects : List NetworkEffect
  result : Except String UploadResponse
deriving DecidableEq, Repr

/-- Method `DocumentService.uploadDocument`: validates the file (default rules) and
throws the validator's message before building the form data or issuing any
request; otherwise issues one `POST /api/documents/upload` and returns the
payload, or rethrows `handleError` on failure. Its catch block has no 401
handling: the client state is returned unchanged on every path. -/
def uploadDocument (file : FileMeta) (entityId : Option String) (st : ClientState)
    (resp : ReqOutcome UploadResponse) : UploadCall :=
  let validation := validateFileDefault file
  if validation.isValid = false then
    { state := st, effects := [], result := Except.error (validation.error.getD "") }
  else
    match resp with
    | ReqOutcome.ok d =>
        { state := st, effects := [NetworkEffect.postUpload file.name entityId],
          result := Except.ok d }
    | ReqOutcome.err e =>
        { state := st, effects := [NetworkEffect.postUpload file.name entityId],
          result := Except.error (handleError e) }

/-- A client state holding a live session, used as a concrete input. -/
def cexState : ClientState :=
  { session := { authToken := some "tok", userData := some "usr" },
    redirectedToLogin := false }

/-- A concrete HTTP 401 failure. -/
def cex401 : HttpError :=
  { responseStatus := some 401, responseData := none,
    message := some "Request failed with status code 401" }

/-- Counterexample to C1: a 401 response to the document upload call leaves
the persisted session fully intact and performs no redirect — `uploadDocument`
does not route through `makeRequest` and its catch block has no 401 handling. -/
theorem upload401_keeps_session_cex :
    (uploadDocument { name := "a.pdf", size := 100, type := "application/pdf" }
        none cexState (ReqOutcome.err cex401)).state.session.authToken = some "tok" ∧
    (uploadDocument { name := "a.pdf", size := 100, type := "application/pdf" }
        none cexState (ReqOutcome.err cex401)).state.session.userData = some "usr" ∧
    (uploadDocument { name := "a.pdf", size := 100, type := "application/pdf" }
        none cexState (ReqOutcome.err cex401)).state.redirectedToLogin = false := by
  decide

/-- C1 (amended): the 401 clear-session-and-redirect effect holds exactly for
the calls routed through `makeRequest`; `uploadDocument` (which issues its
request directly) never changes the client state on any path, so a 401 on the
upload call clears nothing and redirects nowhere. -/
theorem session_cleared_on_401_only_in_makeRequest (α : Type) (st : ClientState)
    (e : HttpError) (h401 : e.responseStatus = some 401) (file : FileMeta)
    (entityId : Option String) (st2 : ClientState) (resp : ReqOutcome UploadResponse) :
    (makeRequest st (ReqOutcome.err e : ReqOutcome α)).1 =
      { session := { authToken := none, userData := none }, redirectedToLogin := true } ∧
    (makeRequest st (ReqOutcome.err e : ReqOutcome α)).2 =
      Except.error (handleError e) ∧
    (uploadDocument file entityId st2 resp).state = st2 := by
  refine ⟨?_, ?_, ?_⟩
  · simp [makeRequest, h401]
  · simp [makeRequest]
  · unfold uploadDocument
    by_cases h : (validateFileDefault file).isValid = false
    · simp [h]
    · simp [h]
      cases resp <;> rfl

/-- Concrete witness for the amended C1. -/
theorem session_cleared_on_401_only_in_makeRequest_witness :
    cex401.responseStatus = some 401 ∧
    ((makeRequest cexState (ReqOutcome.err cex401 : ReqOutcome Unit)).1 =
      { session := { authToken := none, userData := none }, redirectedToLogin := true } ∧
    (makeRequest cexState (ReqOutcome.err cex401 : ReqOutcome Unit)).2 =
      Except.error (handleError cex401) ∧
    (uploadDocument { name := "a.pdf", size := 100, type := "application/pdf" }
        none cexState (ReqOutcome.ok ⟨"d1", none, "completed"⟩)).state = cexState) :=
  ⟨by decide,
    session_cleared_on_401_only_in_makeRequest Unit cexState cex401 (by decide)
      { name := "a.pdf", size := 100, type := "application/pdf" } none cexState
      (ReqOutcome.ok ⟨"d1", none, "completed"⟩)⟩

/-- C10: `uploadDocument` enforces the validation precondition itself — for
every file the validator rejects, it throws the validator's message, issues
no network request, and leaves the client state untouched. -/
theorem uploadDocument_rejects_invalid_before_request (file : FileMeta)
    (entityId : Option String) (st : ClientState) (resp : ReqOutcome UploadResponse)
    (hinv : (validateFileDefault file).isValid = false) :
    uploadDocument file entityId st resp =
      { state := st, effects := [],
        result := Except.error ((validateFileDefault file).error.getD "") } := by
  unfold uploadDocument
  simp [hinv]

/-- Concrete witness for C10: a 60MB file is rejected with the size message
and no request is issued. -/
theorem uploadDocument_rejects_invalid_before_request_witness :
    (validateFileDefault { name := "big.pdf", size := 62914560, type := "application/pdf" }).isValid
      = false ∧
    uploadDocument { name := "big.pdf", size := 62914560, type := "application/pdf" }
        none cexState (ReqOutcome.ok ⟨"d1", none, "completed"⟩) =
      { state := cexState, effects := [],
        result := Except.error ((validateFileDefault
          { name := "big.pdf", size := 62914560, type := "application/pdf" }).error.getD "") } :=
  ⟨by decide,
    uploadDocument_rejects_invalid_before_request _ _ _ _ (by decide)⟩

/-- Field `UploadProgress.status` from `document.types.ts`:
`uploading | processing | completed | error`. -/
inductive UploadStatus where
  | uploading
  | processing
  | completed
  | error
deriving DecidableEq, Repr

/-- Type `UploadProgress` from `document.types.ts`: the per-file upload record
tracked by the hook (`none` models an absent optional field). -/
structure UploadProgress where
  id : String
  fileName : String
  progress : Nat
  status : UploadStatus
  error : Option String
  documentId : Option String
  entityId : Option String
deriving DecidableEq, Repr

/-- A `Partial<UploadProgress>` argument of `updateUpload`: `none` means the
field is absent from the update object. `entityId` can be present yet
undefined (`some none`), as in the post-upload update where it is set to
`result.entity_id`. -/
structure UploadPatch where
  progress : Option Nat
  status : Option UploadStatus
  error : Option String
  documentId : Option String
  entityId : Option (Option String)
deriving DecidableEq, Repr

/-- Object spread `{ ...upload, ...updates }`: fields present in the update
override, the rest keep the record's values. -/
def applyPatch (u : UploadProgress) (p : UploadPatch) : UploadProgress :=
  { id := u.id,
    fileName := u.fileName,
    progress := p.progress.getD u.progress,
    status := p.status.getD u.status,
    error := match p.error with | some m => some m | none => u.error,
    documentId := match p.documentId with | some d => some d | none => u.documentId,
    entityId := p.entityId.getD u.entityId }

/-- Callback `updateUpload` from `useDocumentUpload.ts`: copy-on-write map over the
collection, patching exactly the records whose `id` matches. -/
def updateUpload (id : String) (p : UploadPatch) (uploads : List UploadProgress) :
    List UploadProgress :=
  uploads.map fun u => if u.id = id then applyPatch u p else u

/-- Callback `removeUpload` from `useDocumentUpload.ts`: filter the record out. -/
def removeUpload (id : String) (uploads : List UploadProgress) : List UploadProgress :=
  uploads.filter fun u => u.id != id

/-- Callback `cancelUpload` from `useDocumentUpload.ts`: just `removeUpload`. -/
def cancelUpload (id : String) (uploads : List UploadProgress) : List UploadProgress :=
  removeUpload id uploads

/-- Callback `clearCompleted` from `useDocumentUpload.ts`: drop every record whose
status is `completed` or `error`. -/
def clearCompleted (uploads : List UploadProgress) : List UploadProgress :=
  uploads.filter fun u =>
    u.status != UploadStatus.completed && u.status != UploadStatus.error

/-- The record created for each submitted file:
`{id, fileName: file.name, progress: 0, status: 'uploading'}`. -/
def freshRecord (id fileName : String) : UploadProgress :=
  { id := id, fileName := fileName, progress := 0, status := UploadStatus.uploading,
    error := none, documentId := none, entityId := none }

/-- The update `{ status: 'error', error: msg, progress: 0 }`, the shape used
on validation failure, transport failure, processing failure and poll-request
failure. -/
def errorPatch (msg : String) : UploadPatch :=
  { progress := some 0, status := some UploadStatus.error, error := some msg,
    documentId := none, entityId := none }

/-- A bare `{ progress: n }` update. -/
def progressPatch (n : Nat) : UploadPatch :=
  { progress := some n, status := none, error := none, documentId := none, entityId := none }

/-- The update `{ progress: 75, documentId: result.id, entityId: result.entity_id }`
applied once the upload request resolves. -/
def uploadedPatch (docId : String) (entityId : Option String) : UploadPatch :=
  { progress := some 75, status := none, error := none, documentId := some docId,
    entityId := some entityId }

/-- The update `{ status: 'processing', progress: 90 }`. -/
def processingPatch : UploadPatch :=
  { progress := some 90, status := some UploadStatus.processing, error := none,
    documentId := none, entityId := none }

/-- The update `{ status: 'completed', progress: 100 }`. -/
def completedPatch : UploadPatch :=
  { progress := some 100, status := some UploadStatus.completed, error := none,
    documentId := none, entityId := none }

/-- What one `uploadDocument` call resolves to, as the hook's loop sees it:
the payload fields it reads (`result.id`, `result.entity_id`, `result.status`)
or the thrown error's message. -/
inductive UploadOutcome where
  | ok (docId : String) (entityId : Option String) (status : String)
  | err (msg : String)
deriving DecidableEq, Repr

/-- What one `getDocumentStatus` poll resolves to: a snapshot with a `status`
string and optional `error_message`, or a request failure. -/
inductive PollResponse where
  | ok (status : String) (errorMessage : Option String)
  | err
deriving DecidableEq, Repr

/-- The update applied when the status request itself fails:
`{ status: 'error', error: 'Failed to check processing status', progress: 0 }`. -/
def pollRequestErrorPatch : UploadPatch :=
  errorPatch "Failed to check processing status"

/-- One firing of `pollStatus` in `useDocumentUpload.ts`: the update it
applies (if any) and whether it reschedules itself via `setTimeout`. -/
def pollStep (r : PollResponse) : Option UploadPatch × Bool :=
  match r with
  | PollResponse.ok s em =>
      if s = "completed" then (some completedPatch, false)
      else if s = "failed" then (some (errorPatch (jsOrS em "Processing failed")), false)
      else (none, true)
  | PollResponse.err => (some pollRequestErrorPatch, false)

/-- The updates a whole `pollStatus` chain applies, given the successive poll
responses: it keeps rescheduling on non-terminal snapshots and stops at the
first response that makes it emit an update. -/
def pollChainPatches : List PollResponse → List UploadPatch
  | [] => []
  | r :: rest =>
      match pollStep r with
      | (some p, _) => [p]
      | (none, _) => pollChainPatches rest

/-- The main-loop updates `uploadFiles` applies to one file's record, in
order: `{progress: 25}`; on validation failure the error update and
`continue`; else `{progress: 50}`, the awaited upload, then on throw the
error update, else the post-upload update and either the
processing update (when `result.status` is `processing` or `pending`,
after which a poller is scheduled) or the completed update. -/
def mainRecordPatches (f : FileMeta) (o : UploadOutcome) : List UploadPatch :=
  let v := validateFileDefault f
  if v.isValid = false then
    [progressPatch 25, errorPatch (v.error.getD "")]
  else
    match o with
    | UploadOutcome.err m =>
        [progressPatch 25, progressPatch 50, errorPatch m]
    | UploadOutcome.ok d eid s =>
        if s = "processing" ∨ s = "pending" then
          [progressPatch 25, progressPatch 50, uploadedPatch d eid, processingPatch]
        else
          [progressPatch 25, progressPatch 50, uploadedPatch d eid, completedPatch]

/-- Whether the main loop schedules a `pollStatus` chain for this file:
only after a successful upload whose payload status is `processing` or
`pending`. -/
def schedulesPoll (f : FileMeta) (o : UploadOutcome) : Bool :=
  (validateFileDefault f).isValid &&
    match o with
    | UploadOutcome.ok _ _ s => s = "processing" || s = "pending"
    | UploadOutcome.err _ => false

/-- All updates ever applied to one record, in order: the main-loop updates,
then (only if a poller was scheduled) the poll-chain updates. Updates are
keyed by the record's unique id, so updates addressed to other records never
touch it, and the poller is scheduled only after the last main-loop update
for this record. -/
def recordPatchTrace (f : FileMeta) (o : UploadOutcome) (polls : List PollResponse) :
    List UploadPatch :=
  mainRecordPatches f o ++ if schedulesPoll f o then pollChainPatches polls else []

/-- The successive values of one record over its lifetime: the freshly
created record followed by the result of each applied update. -/
def recordStates (init : UploadProgress) (ps : List UploadPatch) : List UploadProgress :=
  ps.scanl applyPatch init

/-- The spec's per-record invariant: `error` records carry progress 0 and
`completed` records carry progress 100. -/
def recordInvariant (u : UploadProgress) : Prop :=
  (u.status = UploadStatus.error → u.progress = 0) ∧
  (u.status = UploadStatus.completed → u.progress = 100)

/-- C7 counterexample: the update applied on a failed status request carries
the message `Failed to check processing status` (capital F), not the claimed
fixed string `failed to check processing status`. -/
theorem pollRequestError_message_cex :
    (pollStep PollResponse.err).1 ≠
      some (errorPatch "failed to check processing status") ∧
    (pollStep PollResponse.err).1 =
      some (errorPatch "Failed to check processing status") := by
  decide

/-- C7 (amended): when the status request itself fails, the poll chain sets
the record to status `error` with message `Failed to check processing status`
and progress 0, emits no further update, and does not reschedule — a poll
failure is never retried in place. -/
theorem pollRequestError_terminal_no_retry :
    pollStep PollResponse.err =
      (some (errorPatch "Failed to check processing status"), false) ∧
    ∀ rest : List PollResponse,
      pollChainPatches (PollResponse.err :: rest) =
        [errorPatch "Failed to check processing status"] := by
  refine ⟨by decide, ?_⟩
  intro rest
  simp [pollChainPatches, pollStep, pollRequestErrorPatch]

/-- C8: cancellation is idempotent and stale poll timers are no-ops —
cancelling an id twice equals cancelling it once, and an update addressed to
a removed id leaves the collection exactly as it was (no record resurrected,
no other record modified). -/
theorem cancelUpload_idempotent_and_stale_update_noop
    (l : List UploadProgress) (id : String) (p : UploadPatch) :
    cancelUpload id (cancelUpload id l) = cancelUpload id l ∧
    updateUpload id p (cancelUpload id l) = cancelUpload id l := by
  constructor
  · unfold cancelUpload removeUpload
    rw [List.filter_filter]
    simp [Bool.and_self]
  · unfold cancelUpload removeUpload updateUpload
    induction l with
    | nil => rfl
    | cons u t ih =>
      simp only [List.filter_cons]
      by_cases h : u.id = id
      · simp [h, ih]
      · simp [h, ih]

/-- A poll chain applies at most one update to its record, and that update is
one of the three terminal ones. -/
theorem pollChainPatches_cases (polls : List PollResponse) :
    pollChainPatches polls = [] ∨
    pollChainPatches polls = [completedPatch] ∨
    (∃ em, pollChainPatches polls = [errorPatch (jsOrS em "Processing failed")]) ∨
    pollChainPatches polls = [pollRequestErrorPatch] := by
  induction polls with
  | nil => left; rfl
  | cons r rest ih =>
    cases r with
    | ok s em =>
      by_cases hc : s = "completed"
      · right; left
        simp [pollChainPatches, pollStep, hc]
      · by_cases hf : s = "failed"
        · right; right; left
          exact ⟨em, by simp [pollChainPatches, pollStep, hc, hf]⟩
        · simpa [pollChainPatches, pollStep, hc, hf] using ih
    | err =>
      right; right; right
      simp [pollChainPatches, pollStep]

/-- C3: every update the orchestrator's main loop or a poll callback applies
to a record keeps the invariants `status = error → progress = 0` and
`status = completed → progress = 100` — every state the record passes through
satisfies them. -/
theorem uploadRecord_invariant_preserved (id name : String) (f : FileMeta)
    (o : UploadOutcome) (polls : List PollResponse) (u : UploadProgress)
    (hu : u ∈ recordStates (freshRecord id name) (recordPatchTrace f o polls)) :
    recordInvariant u := by
  by_cases hv : (validateFileDefault f).isValid = false
  · have ht : recordPatchTrace f o polls =
        [progressPatch 25, errorPatch ((validateFileDefault f).error.getD "")] := by
      simp [recordPatchTrace, mainRecordPatches, schedulesPoll, hv]
    rw [ht] at hu
    simp [recordStates, List.scanl, applyPatch, freshRecord, progressPatch,
      errorPatch] at hu
    rcases hu with rfl | rfl | rfl <;> simp [recordInvariant]
  · have hv' : (validateFileDefault f).isValid = true := by
      simpa using hv
    cases o with
    | err m =>
      have ht : recordPatchTrace f (UploadOutcome.err m) polls =
          [progressPatch 25, progressPatch 50, errorPatch m] := by
        simp [recordPatchTrace, mainRecordPatches, schedulesPoll, hv', hv]
      rw [ht] at hu
      simp [recordStates, List.scanl, applyPatch, freshRecord, progressPatch,
        errorPatch] at hu
      rcases hu with rfl | rfl | rfl | rfl <;> simp [recordInvariant]
    | ok d eid s =>
      by_cases hps : s = "processing" ∨ s = "pending"
      · have ht : recordPatchTrace f (UploadOutcome.ok d eid s) polls =
            [progressPatch 25, progressPatch 50, uploadedPatch d eid,
              processingPatch] ++ pollChainPatches polls := by
          simp [recordPatchTrace, mainRecordPatches, schedulesPoll, hv', hv, hps]
        rcases pollChainPatches_cases polls with hpc | hpc | ⟨em, hpc⟩ | hpc <;>
          rw [hpc] at ht <;> rw [ht] at hu <;>
          simp [recordStates, List.scanl, applyPatch, freshRecord, progressPatch,
            uploadedPatch, processingPatch, completedPatch, errorPatch,
            pollRequestErrorPatch] at hu
        · rcases hu with rfl | rfl | rfl | rfl | rfl <;> simp [recordInvariant]
        · rcases hu with rfl | rfl | rfl | rfl | rfl | rfl <;> simp [recordInvariant]
        · rcases hu with rfl | rfl | rfl | rfl | rfl | rfl <;> simp [recordInvariant]
        · rcases hu with rfl | rfl | rfl | rfl | rfl | rfl <;> simp [recordInvariant]
      · have ht : recordPatchTrace f (UploadOutcome.ok d eid s) polls =
            [progressPatch 25, progressPatch 50, uploadedPatch d eid,
              completedPatch] := by
          simp [recordPatchTrace, mainRecordPatches, schedulesPoll, hv', hv, hps]
        rw [ht] at hu
        simp [recordStates, List.scanl, applyPatch, freshRecord, progressPatch,
          uploadedPatch, completedPatch] at hu
        rcases hu with rfl | rfl | rfl | rfl | rfl <;> simp [recordInvariant]

/-- Concrete witness for C3 at a file that validates, uploads into
`processing` and completes on the second poll. -/
theorem uploadRecord_invariant_preserved_witness :
    freshRecord "u1" "a.pdf" ∈
      recordStates (freshRecord "u1" "a.pdf")
        (recordPatchTrace { name := "a.pdf", size := 100, type := "application/pdf" }
          (UploadOutcome.ok "d1" none "processing")
          [PollResponse.ok "processing" none, PollResponse.ok "completed" none]) ∧
    recordInvariant (freshRecord "u1" "a.pdf") :=
  ⟨by decide,
    uploadRecord_invariant_preserved "u1" "a.pdf"
      { name := "a.pdf", size := 100, type := "application/pdf" }
      (UploadOutcome.ok "d1" none "processing")
      [PollResponse.ok "processing" none, PollResponse.ok "completed" none]
      (freshRecord "u1" "a.pdf") (by decide)⟩

/-- A record's status is in the non-terminal set `{uploading, processing}`. -/
def activeStatus (u : UploadProgress) : Prop :=
  u.status = UploadStatus.uploading ∨ u.status = UploadStatus.processing

/-- C4: along a record's lifetime the progress values are non-decreasing as
long as the status stays in `{uploading, processing}`, and the only updates
that write progress 0 are the ones that set status to `error` in the same
update. -/
theorem progress_monotone_while_active (id name : String) (f : FileMeta)
    (o : UploadOutcome) (polls : List PollResponse) :
    List.Chain' (fun u v => activeStatus u → activeStatus v → u.progress ≤ v.progress)
      (recordStates (freshRecord id name) (recordPatchTrace f o polls)) ∧
    (∀ p ∈ recordPatchTrace f o polls, p.progress = some 0 →
      p.status = some UploadStatus.error) := by
  by_cases hv : (validateFileDefault f).isValid = false
  · have ht : recordPatchTrace f o polls =
        [progressPatch 25, errorPatch ((validateFileDefault f).error.getD "")] := by
      simp [recordPatchTrace, mainRecordPatches, schedulesPoll, hv]
    rw [ht]
    constructor
    · simp [recordStates, List.scanl, applyPatch, freshRecord, progressPatch,
        errorPatch, List.chain'_cons, List.chain'_singleton, activeStatus]
    · simp [progressPatch, errorPatch]
  · have hv' : (validateFileDefault f).isValid = true := by
      simpa using hv
    cases o with
    | err m =>
      have ht : recordPatchTrace f (UploadOutcome.err m) polls =
          [progressPatch 25, progressPatch 50, errorPatch m] := by
        simp [recordPatchTrace, mainRecordPatches, schedulesPoll, hv', hv]
      rw [ht]
      constructor
      · simp [recordStates, List.scanl, applyPatch, freshRecord, progressPatch,
          errorPatch, List.chain'_cons, List.chain'_singleton, activeStatus]
      · simp [progressPatch, errorPatch]
    | ok d eid s =>
      by_cases hps : s = "processing" ∨ s = "pending"
      · have ht : recordPatchTrace f (UploadOutcome.ok d eid s) polls =
            [progressPatch 25, progressPatch 50, uploadedPatch d eid,
              processingPatch] ++ pollChainPatches polls := by
          simp [recordPatchTrace, mainRecordPatches, schedulesPoll, hv', hv, hps]
        rcases pollChainPatches_cases polls with hpc | hpc | ⟨em, hpc⟩ | hpc <;>
          rw [hpc] at ht <;> rw [ht] <;> constructor <;>
          simp [recordStates, List.scanl, applyPatch, freshRecord, progressPatch,
            uploadedPatch, processingPatch, completedPatch, errorPatch,
            pollRequestErrorPatch, List.chain'_cons, List.chain'_singleton,
            activeStatus]
      · have ht : recordPatchTrace f (UploadOutcome.ok d eid s) polls =
            [progressPatch 25, progressPatch 50, uploadedPatch d eid,
              completedPatch] := by
          simp [recordPatchTrace, mainRecordPatches, schedulesPoll, hv', hv, hps]
        rw [ht]
        constructor
        · simp [recordStates, List.scanl, applyPatch, freshRecord, progressPatch,
            uploadedPatch, completedPatch, List.chain'_cons, List.chain'_singleton,
            activeStatus]
        · simp [progressPatch, uploadedPatch, completedPatch]

/-- Concrete witness for C4 (the theorem has no hypotheses; this instantiates
it at a file that validates, uploads into `processing` and then fails a poll
request). -/
theorem progress_monotone_while_active_witness :
    List.Chain' (fun u v => activeStatus u → activeStatus v → u.progress ≤ v.progress)
      (recordStates (freshRecord "u1" "a.pdf")
        (recordPatchTrace { name := "a.pdf", size := 100, type := "application/pdf" }
          (UploadOutcome.ok "d1" none "processing") [PollResponse.err])) :=
  (progress_monotone_while_active "u1" "a.pdf"
    { name := "a.pdf", size := 100, type := "application/pdf" }
    (UploadOutcome.ok "d1" none "processing") [PollResponse.err]).1

/-- A transport-level event of the main loop: the upload request for the file
at a given batch position is issued, or it resolves (with success or
failure). -/
inductive TransportEvent where
  | start (i : Nat)
  | resolve (i : Nat)
deriving DecidableEq, Repr

/-- The transport events one loop iteration contributes: none when validation
fails (`continue` before the transport call), otherwise the awaited request —
issued, then resolved before the loop advances. -/
def fileTransportEvents (i : Nat) (f : FileMeta) : List TransportEvent :=
  if (validateFileDefault f).isValid then
    [TransportEvent.start i, TransportEvent.resolve i]
  else []

/-- The transport events of the whole batch from position `i` on. The loop
body awaits `uploadDocument`, so each iteration's events are over before the
next iteration's begin; the later poll timers issue no transport-level upload
events and are not awaited, so the trace does not depend on poll responses. -/
def transportTraceAux : Nat → List FileMeta → List TransportEvent
  | _, [] => []
  | i, f :: fs => fileTransportEvents i f ++ transportTraceAux (i + 1) fs

/-- The transport-event trace of `uploadFiles` over a batch. -/
def transportTrace (files : List FileMeta) : List TransportEvent :=
  transportTraceAux 0 files

/-- Order key: events of file `i` sit at `2*i` (start) and `2*i + 1`
(resolve). -/
def evKey : TransportEvent → Nat
  | TransportEvent.start i => 2 * i
  | TransportEvent.resolve i => 2 * i + 1

/-- Every event in the tail trace from position `i` has key at least `2*i`. -/
theorem evKey_lower_bound (i : Nat) (fs : List FileMeta) (e : TransportEvent)
    (he : e ∈ transportTraceAux i fs) : 2 * i ≤ evKey e := by
  induction fs generalizing i with
  | nil => simp [transportTraceAux] at he
  | cons f rest ih =>
    simp only [transportTraceAux, List.mem_append] at he
    rcases he with he | he
    · unfold fileTransportEvents at he
      split at he
      · simp at he
        rcases he with rfl | rfl
        · simp [evKey]
        · simp [evKey]
      · simp at he
    · have := ih (i + 1) he
      omega

/-- The transport trace is strictly increasing in the order key. -/
theorem transportTraceAux_pairwise (i : Nat) (fs : List FileMeta) :
    (transportTraceAux i fs).Pairwise (fun a b => evKey a < evKey b) := by
  induction fs generalizing i with
  | nil => simp [transportTraceAux]
  | cons f rest ih =>
    simp only [transportTraceAux]
    rw [List.pairwise_append]
    refine ⟨?_, ih (i + 1), ?_⟩
    · unfold fileTransportEvents
      split
      · simp [evKey]
      · simp
    · intro a ha b hb
      have hb' := evKey_lower_bound (i + 1) rest b hb
      unfold fileTransportEvents at ha
      split at ha
      · simp at ha
        rcases ha with rfl | rfl
        · have hk : evKey (TransportEvent.start i) = 2 * i := rfl
          omega
        · have hk : evKey (TransportEvent.resolve i) = 2 * i + 1 := rfl
          omega
      · simp at ha

/-- C5: the upload request for the file at a later batch position is never
issued before the upload request for an earlier position has resolved — if
the trace shows `resolve i` at position `p` and `start j` at position `q`
with `i < j`, then `p < q`. The trace is independent of the poll responses
(polling is scheduled, never awaited). -/
theorem upload_requests_strictly_sequential (files : List FileMeta) (i j p q : Nat)
    (hij : i < j)
    (hres : (transportTrace files).get? p = some (TransportEvent.resolve i))
    (hstart : (transportTrace files).get? q = some (TransportEvent.start j)) :
    p < q := by
  have hpw : (transportTrace files).Pairwise (fun a b => evKey a < evKey b) :=
    transportTraceAux_pairwise 0 files
  rcases Nat.lt_trichotomy p q with h | h | h
  · exact h
  · exfalso
    subst h
    rw [hres] at hstart
    simp at hstart
  · exfalso
    obtain ⟨hql, hqe⟩ := List.get?_eq_some.mp hstart
    obtain ⟨hpl, hpe⟩ := List.get?_eq_some.mp hres
    have hlt := List.pairwise_iff_get.mp hpw ⟨q, hql⟩ ⟨p, hpl⟩ h
    rw [hqe, hpe] at hlt
    simp [evKey] at hlt
    omega

/-- Concrete witness for C5: a two-file batch of valid files gives the trace
`[start 0, resolve 0, start 1, resolve 1]`; the resolve of file 0 (position
1) precedes the start of file 1 (position 2). -/
theorem upload_requests_strictly_sequential_witness :
    (0 < 1 ∧
      (transportTrace [{ name := "a.pdf", size := 100, type := "application/pdf" },
        { name := "b.pdf", size := 200, type := "application/pdf" }]).get? 1 =
          some (TransportEvent.resolve 0) ∧
      (transportTrace [{ name := "a.pdf", size := 100, type := "application/pdf" },
        { name := "b.pdf", size := 200, type := "application/pdf" }]).get? 2 =
          some (TransportEvent.start 1)) ∧
    1 < 2 :=
  ⟨⟨by decide, by decide, by decide⟩,
    upload_requests_strictly_sequential
      [{ name := "a.pdf", size := 100, type := "application/pdf" },
        { name := "b.pdf", size := 200, type := "application/pdf" }]
      0 1 1 2 (by decide) (by decide) (by decide)⟩

/-- One entry of a batch as the main loop sees it: the locally generated
record id, the file, and what its awaited upload resolves to. -/
structure BatchJob where
  id : String
  file : FileMeta
  outcome : UploadOutcome
deriving DecidableEq, Repr

/-- Apply a sequence of `updateUpload id _` calls to the collection, in
order — the per-iteration effect of the main loop on the shared collection. -/
def applyPatchesById (id : String) : List UploadPatch → List UploadProgress → List UploadProgress
  | [], st => st
  | p :: ps, st => applyPatchesById id ps (updateUpload id p st)

/-- One iteration of the `for` loop in `uploadFiles`: all of this file's
main-loop updates, addressed to its record id. -/
def processFile (st : List UploadProgress) (j : BatchJob) : List UploadProgress :=
  applyPatchesById j.id (mainRecordPatches j.file j.outcome) st

/-- The main task of `uploadFiles`: append one fresh record per file to the
existing collection, then run the loop body for each file in order. -/
def uploadFilesMain (prev : List UploadProgress) (jobs : List BatchJob) :
    List UploadProgress :=
  jobs.foldl processFile (prev ++ jobs.map fun j => freshRecord j.id j.file.name)

/-- The state one file's record reaches by the end of the main loop
(before any poll update). -/
def mainFinalRecord (j : BatchJob) : UploadProgress :=
  (mainRecordPatches j.file j.outcome).foldl applyPatch (freshRecord j.id j.file.name)

theorem foldl_applyPatch_id (ps : List UploadPatch) (u : UploadProgress) :
    (ps.foldl applyPatch u).id = u.id := by
  induction ps generalizing u with
  | nil => rfl
  | cons p ps ih => simpa [List.foldl_cons] using ih (applyPatch u p)

theorem updateUpload_append (id : String) (p : UploadPatch)
    (l1 l2 : List UploadProgress) :
    updateUpload id p (l1 ++ l2) = updateUpload id p l1 ++ updateUpload id p l2 := by
  simp [updateUpload]

theorem applyPatchesById_append (id : String) (ps : List UploadPatch)
    (l1 l2 : List UploadProgress) :
    applyPatchesById id ps (l1 ++ l2) =
      applyPatchesById id ps l1 ++ applyPatchesById id ps l2 := by
  induction ps generalizing l1 l2 with
  | nil => rfl
  | cons p ps ih =>
      simp only [applyPatchesById, updateUpload_append]
      exact ih (updateUpload id p l1) (updateUpload id p l2)

theorem updateUpload_not_mem (id : String) (p : UploadPatch)
    (l : List UploadProgress) (h : ∀ u ∈ l, u.id ≠ id) :
    updateUpload id p l = l := by
  induction l with
  | nil => rfl
  | cons u t ih =>
      have ht := ih fun v hv => h v (List.mem_cons_of_mem u hv)
      simp only [updateUpload, List.map_cons] at ht ⊢
      rw [if_neg (h u (List.mem_cons_self u t)), ht]

theorem applyPatchesById_not_mem (id : String) (ps : List UploadPatch)
    (l : List UploadProgress) (h : ∀ u ∈ l, u.id ≠ id) :
    applyPatchesById id ps l = l := by
  induction ps with
  | nil => rfl
  | cons p ps ih =>
      simp only [applyPatchesById]
      rw [updateUpload_not_mem id p l h]
      exact ih

theorem applyPatchesById_singleton (id : String) (ps : List UploadPatch)
    (r : UploadProgress) (hr : r.id = id) :
    applyPatchesById id ps [r] = [ps.foldl applyPatch r] := by
  induction ps generalizing r with
  | nil => rfl
  | cons p ps ih =>
      simp only [applyPatchesById, updateUpload, List.map_cons, List.map_nil,
        List.foldl_cons]
      rw [if_pos hr]
      exact ih (applyPatch r p) hr

/-- The loop over the batch leaves the pre-existing records untouched and
drives each batch record to exactly the final state determined by its own
file and its own upload outcome. -/
theorem uploadFilesMain_eq (jobs : List BatchJob) (prev : List UploadProgress)
    (hdisj : ∀ u ∈ prev, ∀ j ∈ jobs, u.id ≠ j.id)
    (hnodup : (jobs.map BatchJob.id).Nodup) :
    uploadFilesMain prev jobs = prev ++ jobs.map mainFinalRecord := by
  unfold uploadFilesMain
  induction jobs generalizing prev with
  | nil => simp
  | cons j rest ih =>
      have hnd : (∀ x ∈ rest, ¬x.id = j.id) ∧ (List.map BatchJob.id rest).Nodup := by
        simpa using hnodup
      have hjrest : ∀ k ∈ rest, j.id ≠ k.id := fun k hk habs => hnd.1 k hk habs.symm
      have hstep :
          processFile (prev ++ (freshRecord j.id j.file.name ::
              rest.map fun k => freshRecord k.id k.file.name)) j =
            (prev ++ [mainFinalRecord j]) ++
              rest.map fun k => freshRecord k.id k.file.name := by
        have hsplit : prev ++ (freshRecord j.id j.file.name ::
            rest.map fun k => freshRecord k.id k.file.name) =
            (prev ++ [freshRecord j.id j.file.name]) ++
              rest.map fun k => freshRecord k.id k.file.name := by
          simp
        rw [hsplit]
        unfold processFile
        rw [applyPatchesById_append, applyPatchesById_append]
        rw [applyPatchesById_not_mem _ _ prev
          (fun u hu => hdisj u hu j (List.mem_cons_self j rest))]
        rw [applyPatchesById_singleton j.id (mainRecordPatches j.file j.outcome)
          (freshRecord j.id j.file.name) rfl]
        rw [applyPatchesById_not_mem _ _ (rest.map fun k => freshRecord k.id k.file.name)
          (by
            intro u hu
            obtain ⟨k, hk, rfl⟩ := List.mem_map.mp hu
            exact fun habs => hjrest k hk habs.symm)]
        rfl
      simp only [List.map_cons, List.foldl_cons]
      rw [hstep]
      have ih' := ih (prev ++ [mainFinalRecord j])
        (by
          intro u hu k hk
          rcases List.mem_append.mp hu with hu | hu
          · exact hdisj u hu k (List.mem_cons_of_mem j hk)
          · have : u = mainFinalRecord j := by simpa using hu
            subst this
            have hid : (mainFinalRecord j).id = j.id :=
              foldl_applyPatch_id _ _
            rw [hid]
            exact hjrest k hk)
        hnd.2
      rw [ih']
      simp

/-- On validation failure the validator's message is always present. -/
theorem validateFile_invalid_error (file : FileMeta) (rules : FileValidationRules)
    (h : (validateFile file rules).isValid = false) :
    ∃ msg, (validateFile file rules).error = some msg := by
  by_cases hs : file.size > rules.maxSize
  · exact ⟨sizeErrorMsg rules, by simp [validateFile, hs]⟩
  · by_cases hm : file.type ∈ rules.allowedTypes
    · exfalso
      have : (validateFile file rules).isValid = true := by
        simp [validateFile, hs, hm, List.contains]
      rw [this] at h
      cases h
    · exact ⟨typeErrorMsg, by simp [validateFile, hs, hm, List.contains]⟩

/-- C6: batch isolation — with distinct record ids, running the whole batch
leaves the pre-existing records exactly as they were and gives every file of
the batch its own final record, computed from its own validation result and
upload outcome alone (so one file's failure never aborts or affects the
rest); a file that fails validation ends in status `error` with the
validator's message, and a file whose upload throws ends in status `error`
with the thrown message. -/
theorem batch_isolation (prev : List UploadProgress) (jobs : List BatchJob)
    (hdisj : ∀ u ∈ prev, ∀ j ∈ jobs, u.id ≠ j.id)
    (hnodup : (jobs.map BatchJob.id).Nodup) :
    uploadFilesMain prev jobs = prev ++ jobs.map mainFinalRecord ∧
    (∀ j ∈ jobs, (validateFileDefault j.file).isValid = false →
      (mainFinalRecord j).status = UploadStatus.error ∧
      some ((mainFinalRecord j).error.getD "") = (validateFileDefault j.file).error) ∧
    (∀ j ∈ jobs, ∀ m, j.outcome = UploadOutcome.err m →
      (validateFileDefault j.file).isValid = true →
      (mainFinalRecord j).status = UploadStatus.error ∧
      (mainFinalRecord j).error = some m) := by
  refine ⟨uploadFilesMain_eq jobs prev hdisj hnodup, ?_, ?_⟩
  · intro j _ hval
    simp only [validateFileDefault] at hval
    obtain ⟨msg, hmsg⟩ := validateFile_invalid_error j.file defaultRules hval
    constructor
    · simp [mainFinalRecord, mainRecordPatches, validateFileDefault, hval,
        List.foldl, applyPatch, freshRecord, progressPatch, errorPatch]
    · simp [mainFinalRecord, mainRecordPatches, validateFileDefault, hval,
        List.foldl, applyPatch, freshRecord, progressPatch, errorPatch, hmsg]
  · intro j _ m houtcome hval
    simp only [validateFileDefault] at hval
    constructor
    · simp [mainFinalRecord, mainRecordPatches, validateFileDefault, hval, houtcome,
        List.foldl, applyPatch, freshRecord, progressPatch, errorPatch]
    · simp [mainFinalRecord, mainRecordPatches, validateFileDefault, hval, houtcome,
        List.foldl, applyPatch, freshRecord, progressPatch, errorPatch]

/-- A three-file batch whose middle file exceeds the 50MB size limit; the
other two validate and upload fine. -/
def demoJobs : List BatchJob :=
  [{ id := "u1", file := { name := "a.pdf", size := 100, type := "application/pdf" },
     outcome := UploadOutcome.ok "d1" none "completed" },
   { id := "u2", file := { name := "big.pdf", size := 62914560, type := "application/pdf" },
     outcome := UploadOutcome.ok "d2" none "completed" },
   { id := "u3", file := { name := "c.pdf", size := 200, type := "application/pdf" },
     outcome := UploadOutcome.ok "d3" none "processing" }]

/-- Concrete witness for C6: on the three-file batch with the oversized
middle file, the batch still produces one fully processed record per file. -/
theorem batch_isolation_witness :
    uploadFilesMain [] demoJobs = [] ++ demoJobs.map mainFinalRecord :=
  (batch_isolation [] demoJobs (by simp) (by decide)).1

/-- Concrete witness instance of C2's quantified part at the fixture. -/
theorem validateFile_isValid_iff_and_fixture_witness :
    (validateFile { name := "big.pdf", size := 11000000, type := "application/pdf" }
        { maxSize := 10485760, allowedTypes := ["application/pdf"] }).isValid = true ↔
      (11000000 ≤ 10485760 ∧
        "application/pdf" ∈ ["application/pdf"]) :=
  validateFile_isValid_iff_and_fixture.1
    { name := "big.pdf", size := 11000000, type := "application/pdf" }
    { maxSize := 10485760, allowedTypes := ["application/pdf"] }

/-- Concrete witness instance of the amended C7 at a one-element response
list. -/
theorem pollRequestError_terminal_no_retry_witness :
    pollChainPatches [PollResponse.err] =
      [errorPatch "Failed to check processing status"] :=
  pollRequestError_terminal_no_retry.2 []

/-- Concrete witness instance of C8 on a two-record collection. -/
theorem cancelUpload_idempotent_and_stale_update_noop_witness :
    cancelUpload "u1" (cancelUpload "u1"
        [freshRecord "u1" "a.pdf", freshRecord "u2" "b.pdf"]) =
      cancelUpload "u1" [freshRecord "u1" "a.pdf", freshRecord "u2" "b.pdf"] ∧
    updateUpload "u1" completedPatch
        (cancelUpload "u1" [freshRecord "u1" "a.pdf", freshRecord "u2" "b.pdf"]) =
      cancelUpload "u1" [freshRecord "u1" "a.pdf", freshRecord "u2" "b.pdf"] :=
  cancelUpload_idempotent_and_stale_update_noop
    [freshRecord "u1" "a.pdf", freshRecord "u2" "b.pdf"] "u1" completedPatch
